import Mathlib

/-!
Verification of the task ownership and filtering model of a to-do list
application.  The API core lives in `src/worker/routes/todo-routes.ts`: five
Hono route handlers (list, create, update, delete-one, delete-completed) over
a `todos` table (drizzle/SQLite, schema in `src/worker/db/schema`), each
scoped to the authenticated caller.  The client view-model lives in
`src/src/components/todo-list.tsx` (filtered views and counts).

Modelling choices:
* The `todos` table is a `List Todo` in insertion order; `id` is declared
  `PRIMARY KEY` in the schema, so stores reachable through the API have
  pairwise distinct ids (the create handler draws a fresh random UUID).
* Timestamps are naturals (milliseconds since epoch); `new Date()` at request
  time is an explicit `now` argument.
* `db.select().where(p)` is `List.filter`; `.limit(1)` then `[0]` is
  `List.head?`; `db.update(...).set({...updates, updatedAt})` is a map that
  rewrites the rows matched by the `where` clause, applying exactly the
  fields present in the patch; `db.delete(...).where(p)` removes the rows
  matched by `p`; `orderBy(desc(createdAt))` is a merge sort by descending
  `createdAt`.
* The `authenticatedOnly` middleware together with the in-handler
  `if (!user) return 401` is the `Option String` caller: `none` yields the
  401 response before anything else runs.
* The `zValidator` bodies (`createTodoSchema`, `updateTodoSchema`) run after
  authentication and before the handler body, rejecting with 400.
* Hono matches routes in registration order, so the route table below lists
  the five routes exactly in the order the source registers them.
-/

/-- Row of the `todos` table: `id` (text primary key), `user_id`, `title`,
`completed`, `created_at`, `updated_at`. -/
structure Todo where
  id : String
  userId : String
  title : String
  completed : Bool
  createdAt : Nat
  updatedAt : Nat
deriving DecidableEq

/-- The `todos` table, in insertion order. -/
abbrev Store := List Todo

/-- Responses a todo route handler can produce: 401 `{error:"Unauthorized"}`,
400 (zod validation), 404 `{error:"Todo not found"}`, 200 with the task
array, 200/201 with a single task (`newTodo[0]` / `updatedTodo[0]`, which is
`none` when the re-select finds nothing), and 200 `{success:true}`. -/
inductive TodoResponse where
  | unauthorized
  | validationError
  | notFound
  | todoList (ts : List Todo)
  | todoItem (status : Nat) (t : Option Todo)
  | success
deriving DecidableEq

/-- Validation in `createTodoSchema`: `z.string().min(1).max(500)`. -/
def validTitle (title : String) : Bool :=
  1 ≤ title.length && title.length ≤ 500

/-- Body accepted by `updateTodoSchema`: optional `title`, optional
`completed`. -/
structure UpdatePatch where
  title : Option String
  completed : Option Bool
deriving DecidableEq

/-- Validation in `updateTodoSchema`: a present `title` must satisfy
`min(1).max(500)`; `completed` only has to be a boolean. -/
def validUpdatePatch (p : UpdatePatch) : Bool :=
  (p.title.map validTitle).getD true

/-- Comparator realising `orderBy(desc(todos.createdAt))`. -/
def createdAtDesc (a b : Todo) : Bool :=
  b.createdAt ≤ a.createdAt

/-- The query of the GET handler: rows with `userId == user.id`, ordered by
`createdAt` descending. -/
def listTodos (uid : String) (s : Store) : List Todo :=
  (s.filter fun t => t.userId == uid).mergeSort createdAtDesc

/-- GET `/` handler (`todoRoutes.get("/")`). -/
def getTodos (user : Option String) (s : Store) : TodoResponse × Store :=
  match user with
  | none => (.unauthorized, s)
  | some uid => (.todoList (listTodos uid s), s)

/-- The values object of the insert in the POST handler: fresh `id`, owner
`user.id`, the validated title, `completed: false`,
`createdAt = updatedAt = now`. -/
def insertedRow (newId uid title : String) (now : Nat) : Todo :=
  { id := newId, userId := uid, title := title, completed := false,
    createdAt := now, updatedAt := now }

/-- POST `/` handler (`todoRoutes.post("/")`): validate the title, insert a
row with a fresh id, `completed=false`, `createdAt=updatedAt=now`, then
re-select the row by id and return it with 201. -/
def createTodo (user : Option String) (title : String) (newId : String)
    (now : Nat) (s : Store) : TodoResponse × Store :=
  match user with
  | none => (.unauthorized, s)
  | some uid =>
    if validTitle title then
      let s' := s ++ [insertedRow newId uid title now]
      (.todoItem 201 ((s'.filter fun t => t.id == newId).head?), s')
    else (.validationError, s)

/-- Effect of `.set({...updates, updatedAt: new Date()})` on one row: fields
present in the patch are written, absent fields are left alone, and
`updatedAt` is always written. -/
def applyPatch (t : Todo) (p : UpdatePatch) (now : Nat) : Todo :=
  { t with
    title := p.title.getD t.title,
    completed := p.completed.getD t.completed,
    updatedAt := now }

/-- PATCH `/:id` handler (`todoRoutes.patch(":id")`): after validation, check
ownership with `where(and(eq(id), eq(userId))).limit(1)`; if no row, 404;
otherwise run the update — whose `where` clause is `eq(todos.id, id)` only —
then re-select by id and return the row with 200. -/
def updateTodo (user : Option String) (id : String) (p : UpdatePatch)
    (now : Nat) (s : Store) : TodoResponse × Store :=
  match user with
  | none => (.unauthorized, s)
  | some uid =>
    if validUpdatePatch p then
      match (s.filter fun t => t.id == id && t.userId == uid).head? with
      | none => (.notFound, s)
      | some _ =>
        let s' := s.map fun t => if t.id == id then applyPatch t p now else t
        (.todoItem 200 ((s'.filter fun t => t.id == id).head?), s')
    else (.validationError, s)

/-- DELETE `/:id` handler (`todoRoutes.delete(":id")`): check ownership with
`where(and(eq(id), eq(userId))).limit(1)`; if no row, 404; otherwise delete
with `where(eq(todos.id, id))` and answer `{success:true}`. -/
def deleteTodo (user : Option String) (id : String) (s : Store) :
    TodoResponse × Store :=
  match user with
  | none => (.unauthorized, s)
  | some uid =>
    match (s.filter fun t => t.id == id && t.userId == uid).head? with
    | none => (.notFound, s)
    | some _ => (.success, s.filter fun t => !(t.id == id))

/-- DELETE `/completed` handler (`todoRoutes.delete("/completed")`): delete
with `where(and(eq(userId, user.id), eq(completed, true)))` and answer
`{success:true}` unconditionally. -/
def deleteCompleted (user : Option String) (s : Store) :
    TodoResponse × Store :=
  match user with
  | none => (.unauthorized, s)
  | some uid =>
    (.success, s.filter fun t => !(t.userId == uid && t.completed))

/-- HTTP methods used by the todo routes. -/
inductive Method where
  | get
  | post
  | patchM
  | deleteM
deriving DecidableEq

/-- Path patterns used by the todo routes: `/`, `/:id`, and a literal
segment such as `/completed`. -/
inductive PathPattern where
  | root
  | param
  | lit (seg : String)
deriving DecidableEq

/-- The five handlers of `todoRoutes`. -/
inductive TodoHandler where
  | listH
  | createH
  | updateH
  | deleteOneH
  | deleteCompletedH
deriving DecidableEq

/-- The todo route table in the exact registration order of the source:
`.get("/")`, `.post("/")`, `.patch("/:id")`, `.delete("/:id")`,
`.delete("/completed")`. -/
def todoRouteTable : List (Method × PathPattern × TodoHandler) :=
  [(.get, .root, .listH),
   (.post, .root, .createH),
   (.patchM, .param, .updateH),
   (.deleteM, .param, .deleteOneH),
   (.deleteM, .lit ("completed"), .deleteCompletedH)]

/-- Pattern matching for a request path (`none` is `/`, `some seg` is
`/seg`); returns the captured `:id` parameter when the pattern has one. -/
def matchPattern (pat : PathPattern) (path : Option String) :
    Option (Option String) :=
  match pat, path with
  | .root, none => some none
  | .param, some seg => some (some seg)
  | .lit l, some seg => if seg = l then some none else none
  | _, _ => none

/-- First route in the table matching the method and path — Hono executes
the handler registered first. -/
def findRoute (m : Method) (path : Option String) :
    List (Method × PathPattern × TodoHandler) →
    Option (TodoHandler × Option String)
  | [] => none
  | r :: rs =>
    if r.1 = m then
      match matchPattern r.2.1 path with
      | some prm => some (r.2.2, prm)
      | none => findRoute m path rs
    else findRoute m path rs

/-- Dispatch over the registered todo routes. -/
def dispatchTodo (m : Method) (path : Option String) :
    Option (TodoHandler × Option String) :=
  findRoute m path todoRouteTable

/-- A DELETE request for `/todos/seg` as the router actually processes it:
dispatch over the route table, then run the selected handler.  Unmatched
requests fall through to Hono's default 404. -/
def runDeleteRequest (seg : String) (user : Option String) (s : Store) :
    TodoResponse × Store :=
  match dispatchTodo .deleteM (some seg) with
  | some (.deleteOneH, some id) => deleteTodo user id s
  | some (.deleteCompletedH, _) => deleteCompleted user s
  | _ => (.notFound, s)

/-- One API mutation together with the data the server draws for it (the
fresh UUID for create). -/
inductive TodoOp where
  | createOp (uid title id : String)
  | updateOp (uid id : String) (p : UpdatePatch)
  | deleteOneOp (uid id : String)
  | deleteCompletedOp (uid : String)

/-- Store effect of an authenticated API call at time `now`. -/
def applyOp (op : TodoOp) (now : Nat) (s : Store) : Store :=
  match op with
  | .createOp uid title id => (createTodo (some uid) title id now s).2
  | .updateOp uid id p => (updateTodo (some uid) id p now s).2
  | .deleteOneOp uid id => (deleteTodo (some uid) id s).2
  | .deleteCompletedOp uid => (deleteCompleted (some uid) s).2

/-- Side condition of a step: `crypto.randomUUID()` together with the
`PRIMARY KEY` constraint on `todos.id` guarantees that the id a create
inserts is not already in the table. -/
def opFresh (op : TodoOp) (s : Store) : Prop :=
  match op with
  | .createOp _ _ id => id ∉ s.map Todo.id
  | _ => True

/-- Store states reachable from the empty table through authenticated API
calls, with a clock that never moves backwards (`t ≤ now` at each step). -/
inductive Reachable : Store → Nat → Prop where
  | init : Reachable [] 0
  | step {s : Store} {t now : Nat} (op : TodoOp) :
      Reachable s t → t ≤ now → opFresh op s →
      Reachable (applyOp op now s) now

/-- Client filter selector (`type Filter` in `todo-list.tsx`; named `TodoFilter` here to avoid the ambient `Filter`). -/
inductive TodoFilter where
  | all
  | active
  | completed
deriving DecidableEq

/-- The `filteredTodos` view of `todo-list.tsx`: `active` keeps
`!todo.completed`, `completed` keeps `todo.completed`, `all` keeps
everything. -/
def filteredTodos (filter : TodoFilter) (todos : List Todo) : List Todo :=
  todos.filter fun todo =>
    match filter with
    | .active => !todo.completed
    | .completed => todo.completed
    | .all => true

/-- The `activeTodoCount` derivation of `todo-list.tsx`. -/
def activeTodoCount (todos : List Todo) : Nat :=
  (todos.filter fun t => !t.completed).length

/-- The `completedTodoCount` derivation of `todo-list.tsx`. -/
def completedTodoCount (todos : List Todo) : Nat :=
  (todos.filter fun t => t.completed).length


/-! ### Concrete stores and requests used to instantiate the theorems -/

/-- The body `{}`: a PATCH request carrying neither `title` nor
`completed`. -/
def emptyPatch : UpdatePatch :=
  { title := none, completed := none }

/-- A PATCH body carrying only `completed: true`. -/
def togglePatch : UpdatePatch :=
  { title := none, completed := some true }

/-- The API call in which user `alice` creates the task `milk` and the
server draws the fresh id `t1`. -/
def opCreateMilk : TodoOp :=
  .createOp ("alice") ("milk") ("t1")

/-- Store after `alice` created `milk` at time 1. -/
def createdStore : Store :=
  applyOp opCreateMilk 1 []

/-- The API call in which `alice` marks `t1` completed. -/
def opToggleMilk : TodoOp :=
  .updateOp ("alice") ("t1") togglePatch

/-- Store after `alice` created `milk` at time 1 and completed it at
time 2. -/
def updatedStore : Store :=
  applyOp opToggleMilk 2 createdStore

/-- The row of `milk` after the toggle. -/
def milkDone : Todo :=
  applyPatch (insertedRow ("t1") ("alice") ("milk") 1) togglePatch 2

/-! ### Branch equations for the handlers -/

/-- Create without a caller identity: 401, store untouched. -/
lemma createTodo_none (title newId : String) (now : Nat) (s : Store) :
    createTodo none title newId now s = (.unauthorized, s) := rfl

/-- Create with a valid title inserts the row and returns the re-select. -/
lemma createTodo_valid {title : String} (uid newId : String) (now : Nat)
    (s : Store) (hv : validTitle title = true) :
    createTodo (some uid) title newId now s =
      (.todoItem 201
        (((s ++ [insertedRow newId uid title now]).filter
          fun t => t.id == newId).head?),
       s ++ [insertedRow newId uid title now]) := by
  simp only [createTodo]
  rw [if_pos hv]

/-- Create with an invalid title: 400, store untouched. -/
lemma createTodo_invalid {title : String} (uid newId : String) (now : Nat)
    (s : Store) (hv : validTitle title = false) :
    createTodo (some uid) title newId now s = (.validationError, s) := by
  simp only [createTodo]
  rw [if_neg (by simp [hv])]

/-- Update whose ownership check finds a row: rewrite every row whose id
matches (the update's `where` clause tests the id only) and return the
re-select by id. -/
lemma updateTodo_found {i uid : String} {p : UpdatePatch} {now : Nat}
    {s : Store} {f0 : Todo} (hv : validUpdatePatch p = true)
    (hF : (s.filter fun t => t.id == i && t.userId == uid).head? = some f0) :
    updateTodo (some uid) i p now s =
      (.todoItem 200
        (((s.map fun t => if t.id == i then applyPatch t p now else t).filter
          fun t => t.id == i).head?),
       s.map fun t => if t.id == i then applyPatch t p now else t) := by
  simp only [updateTodo]
  rw [if_pos hv, hF]

/-- Update whose ownership check finds nothing: 404, store untouched. -/
lemma updateTodo_notfound {i uid : String} {p : UpdatePatch} {now : Nat}
    {s : Store} (hv : validUpdatePatch p = true)
    (hF : (s.filter fun t => t.id == i && t.userId == uid).head? = none) :
    updateTodo (some uid) i p now s = (.notFound, s) := by
  simp only [updateTodo]
  rw [if_pos hv, hF]

/-- Update with an invalid body: 400, store untouched. -/
lemma updateTodo_invalid {i uid : String} {p : UpdatePatch} {now : Nat}
    {s : Store} (hv : validUpdatePatch p = false) :
    updateTodo (some uid) i p now s = (.validationError, s) := by
  simp only [updateTodo]
  rw [if_neg (by simp [hv])]

/-- Delete-one whose ownership check finds a row: remove the rows whose id
matches (the delete's `where` clause tests the id only). -/
lemma deleteTodo_found {i uid : String} {s : Store} {f0 : Todo}
    (hF : (s.filter fun t => t.id == i && t.userId == uid).head? = some f0) :
    deleteTodo (some uid) i s =
      (.success, s.filter fun t => !(t.id == i)) := by
  simp only [deleteTodo]
  rw [hF]

/-- Delete-one whose ownership check finds nothing: 404, store untouched. -/
lemma deleteTodo_notfound {i uid : String} {s : Store}
    (hF : (s.filter fun t => t.id == i && t.userId == uid).head? = none) :
    deleteTodo (some uid) i s = (.notFound, s) := by
  simp only [deleteTodo]
  rw [hF]

/-- Delete-completed for an authenticated caller always answers
`{success:true}` and removes the caller's completed rows. -/
lemma deleteCompleted_some (uid : String) (s : Store) :
    deleteCompleted (some uid) s =
      (.success, s.filter fun t => !(t.userId == uid && t.completed)) := rfl

/-! ### Helper lemmas -/

/-- Maps that preserve `id` (such as the update handler's row rewrite) leave
the id column unchanged. -/
lemma map_id_of_preserve {f : Todo → Todo} (hf : ∀ u, (f u).id = u.id) :
    ∀ s : Store, (s.map f).map Todo.id = s.map Todo.id := by
  intro s
  induction s with
  | nil => rfl
  | cons a s ih => simp [hf, ih]

/-- The update handler's row rewrite preserves the id column. -/
lemma update_map_ids (i : String) (p : UpdatePatch) (n : Nat) (s : Store) :
    ((s.map fun t => if t.id == i then applyPatch t p n else t).map Todo.id)
      = s.map Todo.id := by
  refine map_id_of_preserve (fun u => ?_) s
  by_cases hc : u.id == i <;> simp [hc, applyPatch]

/-- With pairwise distinct ids, selecting by the id of a present row returns
exactly that row. -/
lemma filter_id_single {s : Store} (hN : (s.map Todo.id).Nodup) {t : Todo}
    (ht : t ∈ s) : (s.filter fun u => u.id == t.id) = [t] := by
  induction s with
  | nil => cases ht
  | cons a s ih =>
    have hN' : (s.map Todo.id).Nodup := (List.nodup_cons.mp hN).2
    have haN : a.id ∉ s.map Todo.id := (List.nodup_cons.mp hN).1
    rcases List.mem_cons.mp ht with rfl | hts
    · have hrest : (s.filter fun u => u.id == t.id) = [] := by
        rw [List.filter_eq_nil_iff]
        intro v hv hvid
        exact haN (List.mem_map.mpr ⟨v, hv, beq_iff_eq.mp hvid⟩)
      simp [List.filter_cons, hrest]
    · have hne : ¬((a.id == t.id) = true) := by
        intro h
        exact haN (List.mem_map.mpr ⟨t, hts, (beq_iff_eq.mp h).symm⟩)
      simp [List.filter_cons, hne, ih hN' hts]

/-- With pairwise distinct ids, rows are determined by their id. -/
lemma eq_of_id_eq {s : Store} (hN : (s.map Todo.id).Nodup) {t u : Todo}
    (ht : t ∈ s) (hu : u ∈ s) (h : t.id = u.id) : t = u :=
  List.inj_on_of_nodup_map hN ht hu h

/-- A row produced by `.limit(1)` on a filtered select is in the table and
satisfies the filter. -/
lemma head?_filter_some {p : Todo → Bool} {s : Store} {x : Todo}
    (h : (s.filter p).head? = some x) : x ∈ s ∧ p x = true := by
  have hx : x ∈ s.filter p := List.mem_of_mem_head? h
  exact ⟨List.mem_of_mem_filter hx, (List.mem_filter.mp hx).2⟩

/-- An empty `.limit(1)` select means no row satisfies the filter. -/
lemma head?_filter_none {p : Todo → Bool} {s : Store}
    (h : (s.filter p).head? = none) : ∀ x ∈ s, ¬p x = true := by
  rw [List.head?_eq_none_iff] at h
  exact List.filter_eq_nil_iff.mp h

/-- A row satisfying the filter forces `.limit(1)` to return a row. -/
lemma head?_filter_ne_none {p : Todo → Bool} {s : Store} {x : Todo}
    (hx : x ∈ s) (hpx : p x = true) : (s.filter p).head? ≠ none := by
  intro h
  exact head?_filter_none h x hx hpx

/-! ### Invariants of reachable stores -/

/-- The `PRIMARY KEY` column: reachable stores have pairwise distinct ids. -/
theorem reachable_ids_nodup {s : Store} {tm : Nat} (h : Reachable s tm) :
    (s.map Todo.id).Nodup := by
  induction h with
  | init => simp
  | @step s t now op hr hle hfresh ih =>
    cases op with
    | createOp uid title i =>
      simp only [opFresh] at hfresh
      cases hv : validTitle title with
      | false => rw [applyOp, (createTodo_invalid uid i now s hv)]; exact ih
      | true =>
        rw [applyOp, (createTodo_valid uid i now s hv)]
        simp [List.nodup_append, ih, insertedRow, hfresh]
    | updateOp uid i p =>
      cases hv : validUpdatePatch p with
      | false => rw [applyOp, (updateTodo_invalid hv)]; exact ih
      | true =>
        cases hF : (s.filter fun t => t.id == i && t.userId == uid).head? with
        | none => rw [applyOp, (updateTodo_notfound hv hF)]; exact ih
        | some f0 =>
          rw [applyOp, (updateTodo_found hv hF)]
          simpa only [update_map_ids] using ih
    | deleteOneOp uid i =>
      cases hF : (s.filter fun t => t.id == i && t.userId == uid).head? with
      | none => rw [applyOp, (deleteTodo_notfound hF)]; exact ih
      | some f0 =>
        rw [applyOp, (deleteTodo_found hF)]
        exact ih.sublist ((s.filter_sublist).map Todo.id)
    | deleteCompletedOp uid =>
      rw [applyOp, (deleteCompleted_some uid s)]
      exact ih.sublist ((s.filter_sublist).map Todo.id)

/-- In a reachable store every row satisfies `createdAt ≤ updatedAt`, and no
timestamp is ahead of the clock. -/
theorem reachable_timestamps {s : Store} {tm : Nat} (h : Reachable s tm) :
    ∀ τ ∈ s, τ.createdAt ≤ τ.updatedAt ∧ τ.updatedAt ≤ tm := by
  induction h with
  | init => simp
  | @step s t now op hr hle hfresh ih =>
    have ih' : ∀ τ ∈ s, τ.createdAt ≤ τ.updatedAt ∧ τ.updatedAt ≤ now :=
      fun τ hτ => ⟨(ih τ hτ).1, le_trans (ih τ hτ).2 hle⟩
    cases op with
    | createOp uid title i =>
      cases hv : validTitle title with
      | false => rw [applyOp, (createTodo_invalid uid i now s hv)]; exact ih'
      | true =>
        rw [applyOp, (createTodo_valid uid i now s hv)]
        intro τ hτ
        rcases List.mem_append.mp hτ with hτs | hτn
        · exact ih' τ hτs
        · rcases List.mem_singleton.mp hτn with rfl
          simp [insertedRow]
    | updateOp uid i p =>
      cases hv : validUpdatePatch p with
      | false => rw [applyOp, (updateTodo_invalid hv)]; exact ih'
      | true =>
        cases hF : (s.filter fun t => t.id == i && t.userId == uid).head? with
        | none => rw [applyOp, (updateTodo_notfound hv hF)]; exact ih'
        | some f0 =>
          rw [applyOp, (updateTodo_found hv hF)]
          intro τ hτ
          rcases List.mem_map.mp hτ with ⟨u, hu, rfl⟩
          by_cases hc : (u.id == i) = true
          · simp only [hc, if_true, applyPatch]
            exact ⟨le_trans (ih' u hu).1 (le_trans (ih' u hu).2 le_rfl),
                   le_rfl⟩
          · simp only [hc, if_false]
            exact ih' u hu
    | deleteOneOp uid i =>
      cases hF : (s.filter fun t => t.id == i && t.userId == uid).head? with
      | none => rw [applyOp, (deleteTodo_notfound hF)]; exact ih'
      | some f0 =>
        rw [applyOp, (deleteTodo_found hF)]
        exact fun τ hτ => ih' τ (List.mem_of_mem_filter hτ)
    | deleteCompletedOp uid =>
      rw [applyOp, (deleteCompleted_some uid s)]
      exact fun τ hτ => ih' τ (List.mem_of_mem_filter hτ)

/-- The store after one create is reachable. -/
lemma createdStore_reachable : Reachable createdStore 1 :=
  Reachable.step opCreateMilk Reachable.init (Nat.zero_le 1)
    (by simp [opCreateMilk, opFresh])

/-- The store after a create and a toggle is reachable. -/
lemma updatedStore_reachable : Reachable updatedStore 2 :=
  Reachable.step opToggleMilk createdStore_reachable (by omega)
    (by simp [opToggleMilk, opFresh])

/-! ### Claims -/

/-- Claim C5: for every empty or over-500-character title, Create answers
400 (ValidationError) and leaves the store unchanged — no row is
persisted. -/
theorem c5_create_invalid_title {title : String} (uid newId : String)
    (now : Nat) (s : Store) (h : title = "" ∨ 500 < title.length) :
    createTodo (some uid) title newId now s = (.validationError, s) := by
  apply createTodo_invalid
  rcases h with rfl | hl
  · rfl
  · simp only [validTitle, Bool.and_eq_false_iff, decide_eq_false_iff_not,
      Nat.not_le]
    omega

/-- Witness for C5 at the empty title. -/
theorem c5_create_invalid_title_witness :
    createTodo (some ("u")) ("") ("x") 0 [] = (.validationError, []) :=
  c5_create_invalid_title ("u") ("x") 0 [] (Or.inl rfl)

/-- Claim C7: for every authenticated caller, List answers 200 with exactly
the caller's tasks, sorted by `createdAt` descending, without pagination,
and the empty sequence when the caller owns none. -/
theorem c7_list_ordered (uid : String) (s : Store) :
    getTodos (some uid) s = (.todoList (listTodos uid s), s) ∧
    (listTodos uid s).Perm (s.filter fun t => t.userId == uid) ∧
    (listTodos uid s).Pairwise (fun a b => b.createdAt ≤ a.createdAt) ∧
    (∀ t ∈ listTodos uid s, t.userId = uid) ∧
    (listTodos uid s = [] ↔ ∀ t ∈ s, t.userId ≠ uid) := by
  have hperm : (listTodos uid s).Perm (s.filter fun t => t.userId == uid) :=
    List.mergeSort_perm _ _
  refine ⟨rfl, hperm, ?_, ?_, ?_⟩
  · have htrans : ∀ a b c : Todo, createdAtDesc a b → createdAtDesc b c →
        createdAtDesc a c := by
      intro a b c hab hbc
      simp only [createdAtDesc, decide_eq_true_eq] at *
      omega
    have htotal : ∀ a b : Todo, createdAtDesc a b || createdAtDesc b a := by
      intro a b
      simp only [createdAtDesc, Bool.or_eq_true, decide_eq_true_eq]
      omega
    have hs := List.sorted_mergeSort htrans htotal
      (s.filter fun t => t.userId == uid)
    exact hs.imp fun hab => by simpa [createdAtDesc] using hab
  · intro t hmem
    have ht : t ∈ s.filter fun t => t.userId == uid :=
      List.mem_mergeSort.mp hmem
    exact beq_iff_eq.mp (List.mem_filter.mp ht).2
  · constructor
    · intro h t hts huid
      have hmem : t ∈ s.filter fun t => t.userId == uid :=
        List.mem_filter.mpr ⟨hts, beq_iff_eq.mpr huid⟩
      have hfil : (s.filter fun t => t.userId == uid) = [] := by
        have h2 := hperm.symm
        rw [h] at h2
        exact h2.eq_nil
      rw [hfil] at hmem
      cases hmem
    · intro h
      have hfil : (s.filter fun t => t.userId == uid) = [] := by
        rw [List.filter_eq_nil_iff]
        intro t hts hbeq
        exact h t hts (beq_iff_eq.mp hbeq)
      rw [hfil] at hperm
      exact hperm.eq_nil

/-- Claim C8: every task in every reachable store satisfies
`createdAt ≤ updatedAt`; Create initialises both to the same instant and
Update rewrites `updatedAt` with the current (never earlier) clock. -/
theorem c8_updated_at_ge_created_at {s : Store} {tm : Nat}
    (h : Reachable s tm) : ∀ τ ∈ s, τ.createdAt ≤ τ.updatedAt :=
  fun τ hτ => (reachable_timestamps h τ hτ).1

/-- Witness for C8: the row of `milk` after its toggle, in the store reached
by a create followed by an update. -/
theorem c8_updated_at_ge_created_at_witness :
    milkDone.createdAt ≤ milkDone.updatedAt :=
  c8_updated_at_ge_created_at updatedStore_reachable milkDone (by decide)

/-- Claim C9: `filteredTodos` with `all` is the identity, the `active` and
`completed` views partition the list with no overlap and no omission, and
the two counts add up to the length. -/
theorem c9_filter_partition (l : List Todo) :
    filteredTodos .all l = l ∧
    (filteredTodos .active l ++ filteredTodos .completed l).Perm l ∧
    (∀ t ∈ filteredTodos .active l, t ∉ filteredTodos .completed l) ∧
    activeTodoCount l + completedTodoCount l = l.length := by
  have hact : filteredTodos .active l = l.filter fun t => !t.completed := rfl
  have hcomp : filteredTodos .completed l = l.filter fun t => t.completed :=
    rfl
  have hperm :
      ((l.filter fun t => !t.completed) ++ (l.filter fun t => t.completed)).Perm
        l := by
    have h := List.filter_append_perm (fun t => !t.completed) l
    simpa [Bool.not_not] using h
  refine ⟨?_, ?_, ?_, ?_⟩
  · simp [filteredTodos]
  · rw [hact, hcomp]
    exact hperm
  · intro t hta htc
    rw [hact] at hta
    rw [hcomp] at htc
    have h1 := (List.mem_filter.mp hta).2
    have h2 := (List.mem_filter.mp htc).2
    simp [h2] at h1
  · have hlen := hperm.length_eq
    simpa [activeTodoCount, completedTodoCount] using hlen

/-- Claim C1 fails on the code: `.delete("/:id")` is registered before
`.delete("/completed")` and Hono dispatches in registration order, so a
DELETE of `/todos/completed` runs the delete-one handler with
`id = "completed"`.  For an authenticated caller owning one completed task
(id `t1`), the request answers 404 and deletes nothing, while the spec
demands 200 `{success:true}` and removal of the completed tasks — which is
exactly what the unreachable `/completed` handler body would have done. -/
theorem c1_delete_completed_unreachable :
    dispatchTodo .deleteM (some ("completed"))
        = some (.deleteOneH, some ("completed")) ∧
    runDeleteRequest ("completed") (some ("alice")) updatedStore
        = (.notFound, updatedStore) ∧
    deleteCompleted (some ("alice")) updatedStore = (.success, []) := by
  refine ⟨?_, ?_, ?_⟩ <;> decide

/-- Behaviour of the PATCH handler on an owned task in a store with
pairwise distinct ids: 200 with the patched row, every other row untouched,
no row added or removed. -/
lemma updateTodo_spec {s : Store} {t : Todo} {uid : String} {p : UpdatePatch}
    {now : Nat} (hN : (s.map Todo.id).Nodup) (ht : t ∈ s)
    (hu : t.userId = uid) (hv : validUpdatePatch p = true) :
    (updateTodo (some uid) t.id p now s).1
        = .todoItem 200 (some (applyPatch t p now)) ∧
    applyPatch t p now ∈ (updateTodo (some uid) t.id p now s).2 ∧
    (∀ u ∈ s, u.id ≠ t.id → u ∈ (updateTodo (some uid) t.id p now s).2) ∧
    (∀ u ∈ (updateTodo (some uid) t.id p now s).2, u.id ≠ t.id → u ∈ s) ∧
    (updateTodo (some uid) t.id p now s).2.length = s.length := by
  have hqt : (t.id == t.id && t.userId == uid) = true := by
    simp [hu]
  cases hF : (s.filter fun u => u.id == t.id && u.userId == uid).head? with
  | none => exact absurd hF (head?_filter_ne_none ht hqt)
  | some f0 =>
    rw [updateTodo_found hv hF]
    set f : Todo → Todo :=
      fun u => if u.id == t.id then applyPatch u p now else u with hfdef
    have hft : f t = applyPatch t p now := by
      simp [hfdef]
    have hfother : ∀ u : Todo, u.id ≠ t.id → f u = u := by
      intro u hne
      simp [hfdef, hne]
    have hmemf : applyPatch t p now ∈ s.map f :=
      hft ▸ List.mem_map_of_mem f ht
    have hNids : ((s.map f).map Todo.id).Nodup := by
      rw [update_map_ids]
      exact hN
    have hid : (applyPatch t p now).id = t.id := rfl
    refine ⟨?_, hmemf, ?_, ?_, by simp⟩
    · have hsingle : ((s.map f).filter fun u => u.id == t.id)
          = [applyPatch t p now] := by
        have h1 := filter_id_single hNids hmemf
        rw [hid] at h1
        exact h1
      simp [hsingle]
    · intro u hus hne
      rw [← hfother u hne]
      exact List.mem_map_of_mem f hus
    · intro u humap hne
      rcases List.mem_map.mp humap with ⟨v, hvs, rfl⟩
      have hvid : (f v).id = v.id := by
        simp only [hfdef]
        split <;> rfl
      rw [hfother v (by rw [← hvid]; exact hne)]
      exact hvs

/-- Claim C3: for every owned task and every valid patch, Update writes
exactly the fields present in the patch and refreshes only `updatedAt`: a
patch without `title` keeps the title, a patch without `completed` keeps the
flag, and `id`, `userId`, `createdAt` and all other rows are untouched. -/
theorem c3_partial_update_frame {s : Store} {t : Todo} {uid : String}
    {p : UpdatePatch} {now : Nat} (hN : (s.map Todo.id).Nodup) (ht : t ∈ s)
    (hu : t.userId = uid) (hv : validUpdatePatch p = true) :
    (updateTodo (some uid) t.id p now s).1
        = .todoItem 200 (some (applyPatch t p now)) ∧
    (p.title = none → (applyPatch t p now).title = t.title) ∧
    (p.completed = none → (applyPatch t p now).completed = t.completed) ∧
    (applyPatch t p now).id = t.id ∧
    (applyPatch t p now).userId = t.userId ∧
    (applyPatch t p now).createdAt = t.createdAt ∧
    (applyPatch t p now).updatedAt = now ∧
    (∀ u ∈ s, u.id ≠ t.id → u ∈ (updateTodo (some uid) t.id p now s).2) ∧
    (updateTodo (some uid) t.id p now s).2.length = s.length := by
  obtain ⟨h1, _, h3, _, h5⟩ := updateTodo_spec hN ht hu hv
  refine ⟨h1, ?_, ?_, rfl, rfl, rfl, rfl, h3, h5⟩
  · intro hnone
    simp [applyPatch, hnone]
  · intro hnone
    simp [applyPatch, hnone]

/-- Witness for C3: toggling `completed` on the single owned task leaves
its title alone. -/
theorem c3_partial_update_frame_witness :
    (updateTodo (some ("alice")) (insertedRow ("t1") ("alice") ("milk") 1).id
        togglePatch 2 createdStore).1
      = .todoItem 200
          (some (applyPatch (insertedRow ("t1") ("alice") ("milk") 1)
            togglePatch 2)) ∧
    (togglePatch.title = none →
      (applyPatch (insertedRow ("t1") ("alice") ("milk") 1)
          togglePatch 2).title
        = (insertedRow ("t1") ("alice") ("milk") 1).title) ∧
    (togglePatch.completed = none →
      (applyPatch (insertedRow ("t1") ("alice") ("milk") 1)
          togglePatch 2).completed
        = (insertedRow ("t1") ("alice") ("milk") 1).completed) ∧
    (applyPatch (insertedRow ("t1") ("alice") ("milk") 1) togglePatch 2).id
        = (insertedRow ("t1") ("alice") ("milk") 1).id ∧
    (applyPatch (insertedRow ("t1") ("alice") ("milk") 1)
        togglePatch 2).userId
        = (insertedRow ("t1") ("alice") ("milk") 1).userId ∧
    (applyPatch (insertedRow ("t1") ("alice") ("milk") 1)
        togglePatch 2).createdAt
        = (insertedRow ("t1") ("alice") ("milk") 1).createdAt ∧
    (applyPatch (insertedRow ("t1") ("alice") ("milk") 1)
        togglePatch 2).updatedAt = 2 ∧
    (∀ u ∈ createdStore,
      u.id ≠ (insertedRow ("t1") ("alice") ("milk") 1).id →
        u ∈ (updateTodo (some ("alice"))
          (insertedRow ("t1") ("alice") ("milk") 1).id togglePatch 2
          createdStore).2) ∧
    (updateTodo (some ("alice")) (insertedRow ("t1") ("alice") ("milk") 1).id
        togglePatch 2 createdStore).2.length = createdStore.length :=
  c3_partial_update_frame (by decide) (by decide) rfl (by decide)

/-- Claim C10: the empty patch `{}` is valid input at the public interface;
Update with it answers 200 with the task, keeps `title` and `completed`,
refreshes only `updatedAt`, and touches no other row. -/
theorem c10_empty_patch_accepted {s : Store} {t : Todo} {uid : String}
    {now : Nat} (hN : (s.map Todo.id).Nodup) (ht : t ∈ s)
    (hu : t.userId = uid) :
    validUpdatePatch emptyPatch = true ∧
    (updateTodo (some uid) t.id emptyPatch now s).1
        = .todoItem 200 (some { t with updatedAt := now }) ∧
    ({ t with updatedAt := now } : Todo).title = t.title ∧
    ({ t with updatedAt := now } : Todo).completed = t.completed ∧
    ({ t with updatedAt := now } : Todo).createdAt = t.createdAt ∧
    (∀ u ∈ s, u.id ≠ t.id →
        u ∈ (updateTodo (some uid) t.id emptyPatch now s).2) ∧
    (updateTodo (some uid) t.id emptyPatch now s).2.length = s.length := by
  obtain ⟨h1, _, h3, _, h5⟩ := updateTodo_spec hN ht hu (p := emptyPatch) rfl
  exact ⟨rfl, h1, rfl, rfl, rfl, h3, h5⟩

/-- Witness for C10 on the single-task store. -/
theorem c10_empty_patch_accepted_witness :
    validUpdatePatch emptyPatch = true ∧
    (updateTodo (some ("alice")) (insertedRow ("t1") ("alice") ("milk") 1).id
        emptyPatch 5 createdStore).1
      = .todoItem 200
          (some { insertedRow ("t1") ("alice") ("milk") 1 with
                  updatedAt := 5 }) ∧
    ({ insertedRow ("t1") ("alice") ("milk") 1 with
        updatedAt := 5 } : Todo).title
        = (insertedRow ("t1") ("alice") ("milk") 1).title ∧
    ({ insertedRow ("t1") ("alice") ("milk") 1 with
        updatedAt := 5 } : Todo).completed
        = (insertedRow ("t1") ("alice") ("milk") 1).completed ∧
    ({ insertedRow ("t1") ("alice") ("milk") 1 with
        updatedAt := 5 } : Todo).createdAt
        = (insertedRow ("t1") ("alice") ("milk") 1).createdAt ∧
    (∀ u ∈ createdStore,
      u.id ≠ (insertedRow ("t1") ("alice") ("milk") 1).id →
        u ∈ (updateTodo (some ("alice"))
          (insertedRow ("t1") ("alice") ("milk") 1).id emptyPatch 5
          createdStore).2) ∧
    (updateTodo (some ("alice")) (insertedRow ("t1") ("alice") ("milk") 1).id
        emptyPatch 5 createdStore).2.length = createdStore.length :=
  c10_empty_patch_accepted (by decide) (by decide) rfl

/-- Claim C4: DeleteOne answers 404 exactly when no task with the given id
is owned by the caller, in which case it deletes nothing; otherwise it
answers `{success:true}` and removes exactly the one matching task and no
other row. -/
theorem c4_delete_one_not_found {s : Store} {tm : Nat} {uid i : String}
    (hr : Reachable s tm) :
    ((deleteTodo (some uid) i s).1 = .notFound ↔
        ∀ t ∈ s, ¬(t.id = i ∧ t.userId = uid)) ∧
    ((deleteTodo (some uid) i s).1 = .notFound →
        (deleteTodo (some uid) i s).2 = s) ∧
    ((deleteTodo (some uid) i s).1 = .success →
        ∃ t ∈ s, t.id = i ∧ t.userId = uid ∧
          s.Perm (t :: (deleteTodo (some uid) i s).2)) ∧
    ((deleteTodo (some uid) i s).1 = .success ∨
        (deleteTodo (some uid) i s).1 = .notFound) := by
  have hN := reachable_ids_nodup hr
  cases hF : (s.filter fun t => t.id == i && t.userId == uid).head? with
  | none =>
    rw [deleteTodo_notfound hF]
    have hnone := head?_filter_none hF
    refine ⟨?_, fun _ => rfl, ?_, Or.inr rfl⟩
    · constructor
      · intro _ t hts hc
        exact hnone t hts (by simp [hc.1, hc.2])
      · intro _
        rfl
    · intro hsucc
      simp at hsucc
  | some f0 =>
    rw [deleteTodo_found hF]
    obtain ⟨hf0s, hf0q⟩ := head?_filter_some hF
    have hq' : f0.id = i ∧ f0.userId = uid := by simpa using hf0q
    have hid : f0.id = i := hq'.1
    have huid : f0.userId = uid := hq'.2
    refine ⟨?_, ?_, ?_, Or.inl rfl⟩
    · constructor
      · intro h
        simp at h
      · intro hall
        exact ((hall f0 hf0s) ⟨hid, huid⟩).elim
    · intro h
      simp at h
    · intro _
      refine ⟨f0, hf0s, hid, huid, ?_⟩
      have hsingle : (s.filter fun u => u.id == i) = [f0] := by
        have h1 := filter_id_single hN hf0s
        rw [hid] at h1
        exact h1
      have hp := List.filter_append_perm (fun u => u.id == i) s
      rw [hsingle] at hp
      exact hp.symm

/-- Witness for C4 on the reachable single-task store, deleting the task
the caller owns. -/
theorem c4_delete_one_not_found_witness :
    ((deleteTodo (some ("alice")) ("t1") createdStore).1 = .notFound ↔
        ∀ t ∈ createdStore, ¬(t.id = "t1" ∧ t.userId = "alice")) ∧
    ((deleteTodo (some ("alice")) ("t1") createdStore).1 = .notFound →
        (deleteTodo (some ("alice")) ("t1") createdStore).2
          = createdStore) ∧
    ((deleteTodo (some ("alice")) ("t1") createdStore).1 = .success →
        ∃ t ∈ createdStore, t.id = "t1" ∧ t.userId = "alice" ∧
          createdStore.Perm
            (t :: (deleteTodo (some ("alice")) ("t1") createdStore).2)) ∧
    ((deleteTodo (some ("alice")) ("t1") createdStore).1 = .success ∨
        (deleteTodo (some ("alice")) ("t1") createdStore).1 = .notFound) :=
  c4_delete_one_not_found createdStore_reachable

/-- Claim C2: in every reachable store, a task owned by user A is invisible
to every other caller B: List for B never returns it, Update called by B
neither rewrites nor returns it, and neither DeleteOne nor DeleteCompleted
called by B removes it. -/
theorem c2_ownership_confinement {s : Store} {tm : Nat} {A B : String}
    {t : Todo} (hr : Reachable s tm) (hAB : A ≠ B) (ht : t ∈ s)
    (hA : t.userId = A) :
    t ∉ listTodos B s ∧
    (∀ i p n, t ∈ (updateTodo (some B) i p n s).2) ∧
    (∀ i p n st ot,
      (updateTodo (some B) i p n s).1 = .todoItem st (some ot) → ot ≠ t) ∧
    (∀ i, t ∈ (deleteTodo (some B) i s).2) ∧
    t ∈ (deleteCompleted (some B) s).2 := by
  have hN := reachable_ids_nodup hr
  have htB : (t.userId == B) = false := by
    rw [hA]
    exact beq_eq_false_iff_ne.mpr hAB
  have key : ∀ {i : String} {f0 : Todo},
      (s.filter fun u => u.id == i && u.userId == B).head? = some f0 →
      t.id ≠ i := by
    intro i f0 hF hti
    obtain ⟨hf0s, hq⟩ := head?_filter_some hF
    have hq' : f0.id = i ∧ f0.userId = B := by simpa using hq
    have htf : t = f0 := eq_of_id_eq hN ht hf0s (by rw [hti, hq'.1])
    rw [htf, hq'.2] at hA
    exact hAB hA.symm
  refine ⟨?_, ?_, ?_, ?_, ?_⟩
  · intro hmem
    have h1 : t ∈ s.filter fun u => u.userId == B :=
      List.mem_mergeSort.mp hmem
    have h2 := (List.mem_filter.mp h1).2
    rw [htB] at h2
    cases h2
  · intro i p n
    cases hv : validUpdatePatch p with
    | false =>
      rw [updateTodo_invalid hv]
      exact ht
    | true =>
      cases hF : (s.filter fun u => u.id == i && u.userId == B).head? with
      | none =>
        rw [updateTodo_notfound hv hF]
        exact ht
      | some f0 =>
        rw [updateTodo_found hv hF]
        have hti : t.id ≠ i := key hF
        exact List.mem_map.mpr ⟨t, ht, by simp [hti]⟩
  · intro i p n st ot hresp
    cases hv : validUpdatePatch p with
    | false =>
      rw [updateTodo_invalid hv] at hresp
      simp at hresp
    | true =>
      cases hF : (s.filter fun u => u.id == i && u.userId == B).head? with
      | none =>
        rw [updateTodo_notfound hv hF] at hresp
        simp at hresp
      | some f0 =>
        rw [updateTodo_found hv hF] at hresp
        obtain ⟨hf0s, hq⟩ := head?_filter_some hF
        have hq' : f0.id = i ∧ f0.userId = B := by simpa using hq
        set f : Todo → Todo :=
          fun u => if u.id == i then applyPatch u p n else u with hfdef
        have hinj : ((s.map f).filter fun u => u.id == i).head? = some ot := by
          injection hresp with h1 h2
        obtain ⟨hot_mem, hot_id⟩ := head?_filter_some hinj
        rcases List.mem_map.mp hot_mem with ⟨v, hvs, hfv⟩
        have hvid : (f v).id = v.id := by
          simp only [hfdef]
          split <;> rfl
        have hvidi : v.id = i := by
          rw [← hvid, hfv]
          exact beq_iff_eq.mp hot_id
        have hveq : v = f0 := eq_of_id_eq hN hvs hf0s (by rw [hvidi, hq'.1])
        have hotB : ot.userId = B := by
          rw [← hfv, hveq]
          simp [hfdef, hq'.1, applyPatch, hq'.2]
        intro hcontra
        rw [hcontra, hA] at hotB
        exact hAB hotB
  · intro i
    cases hF : (s.filter fun u => u.id == i && u.userId == B).head? with
    | none =>
      rw [deleteTodo_notfound hF]
      exact ht
    | some f0 =>
      rw [deleteTodo_found hF]
      have hti : t.id ≠ i := key hF
      exact List.mem_filter.mpr ⟨ht, by simp [hti]⟩
  · rw [deleteCompleted_some]
    exact List.mem_filter.mpr ⟨ht, by simp [htB]⟩

/-- Witness for C2: the task `alice` created is untouched by every call
`bob` can make. -/
theorem c2_ownership_confinement_witness :
    insertedRow ("t1") ("alice") ("milk") 1
        ∉ listTodos ("bob") createdStore ∧
    (∀ i p n, insertedRow ("t1") ("alice") ("milk") 1
        ∈ (updateTodo (some ("bob")) i p n createdStore).2) ∧
    (∀ i p n st ot,
      (updateTodo (some ("bob")) i p n createdStore).1
          = .todoItem st (some ot) →
        ot ≠ insertedRow ("t1") ("alice") ("milk") 1) ∧
    (∀ i, insertedRow ("t1") ("alice") ("milk") 1
        ∈ (deleteTodo (some ("bob")) i createdStore).2) ∧
    insertedRow ("t1") ("alice") ("milk") 1
        ∈ (deleteCompleted (some ("bob")) createdStore).2 :=
  c2_ownership_confinement createdStore_reachable (by decide) (by decide) rfl

/-- Claim C6: for every valid title and authenticated caller, Create answers
201 with the created task (`completed = false`, `createdAt = updatedAt`),
appends exactly that row to the store, and a subsequent List by the same
caller returns the previous list plus exactly one new task carrying the
title. -/
theorem c6_create_then_list {uid title newId : String} {now : Nat}
    {s : Store} (hv : validTitle title = true)
    (hfresh : newId ∉ s.map Todo.id) :
    (createTodo (some uid) title newId now s).1
        = .todoItem 201 (some (insertedRow newId uid title now)) ∧
    (createTodo (some uid) title newId now s).2
        = s ++ [insertedRow newId uid title now] ∧
    (listTodos uid (s ++ [insertedRow newId uid title now])).Perm
        (insertedRow newId uid title now :: listTodos uid s) ∧
    (listTodos uid (s ++ [insertedRow newId uid title now])).countP
        (fun u => u.id == newId) = 1 ∧
    (insertedRow newId uid title now).title = title ∧
    (insertedRow newId uid title now).completed = false ∧
    (insertedRow newId uid title now).createdAt
        = (insertedRow newId uid title now).updatedAt := by
  have hnof : ∀ u ∈ s, ¬(u.id == newId) = true := by
    intro u hus hbeq
    exact hfresh (List.mem_map.mpr ⟨u, hus, beq_iff_eq.mp hbeq⟩)
  have hfilter_id : ((s ++ [insertedRow newId uid title now]).filter
      fun u => u.id == newId) = [insertedRow newId uid title now] := by
    rw [List.filter_append, List.filter_eq_nil_iff.mpr hnof]
    simp [insertedRow]
  have hperm : (listTodos uid (s ++ [insertedRow newId uid title now])).Perm
      (insertedRow newId uid title now :: listTodos uid s) := by
    have hq : ((s ++ [insertedRow newId uid title now]).filter
        fun u => u.userId == uid)
        = (s.filter fun u => u.userId == uid)
            ++ [insertedRow newId uid title now] := by
      rw [List.filter_append]
      congr 1
      simp [insertedRow]
    show (((s ++ [insertedRow newId uid title now]).filter
        fun u => u.userId == uid).mergeSort createdAtDesc).Perm
      (insertedRow newId uid title now :: listTodos uid s)
    rw [hq]
    exact ((List.mergeSort_perm _ createdAtDesc).trans
        (List.perm_append_singleton _ _)).trans
      ((List.mergeSort_perm (s.filter fun u => u.userId == uid)
        createdAtDesc).symm.cons _)
  refine ⟨?_, ?_, hperm, ?_, rfl, rfl, rfl⟩
  · rw [createTodo_valid uid newId now s hv, hfilter_id]
    rfl
  · rw [createTodo_valid uid newId now s hv]
  · rw [List.Perm.countP_eq _ hperm]
    have hzero : (listTodos uid s).countP (fun u => u.id == newId) = 0 := by
      rw [List.countP_eq_zero]
      intro u hu
      exact hnof u (List.mem_of_mem_filter (List.mem_mergeSort.mp hu))
    rw [List.countP_cons_of_pos _ _ (by simp [insertedRow]), hzero]

/-- Witness for C6: `alice` creates `milk` in the empty store. -/
theorem c6_create_then_list_witness :
    (createTodo (some ("alice")) ("milk") ("t1") 1 []).1
        = .todoItem 201 (some (insertedRow ("t1") ("alice") ("milk") 1)) ∧
    (createTodo (some ("alice")) ("milk") ("t1") 1 []).2
        = [] ++ [insertedRow ("t1") ("alice") ("milk") 1] ∧
    (listTodos ("alice")
        ([] ++ [insertedRow ("t1") ("alice") ("milk") 1])).Perm
      (insertedRow ("t1") ("alice") ("milk") 1 :: listTodos ("alice") []) ∧
    (listTodos ("alice")
        ([] ++ [insertedRow ("t1") ("alice") ("milk") 1])).countP
      (fun u => u.id == "t1") = 1 ∧
    (insertedRow ("t1") ("alice") ("milk") 1).title = "milk" ∧
    (insertedRow ("t1") ("alice") ("milk") 1).completed = false ∧
    (insertedRow ("t1") ("alice") ("milk") 1).createdAt
        = (insertedRow ("t1") ("alice") ("milk") 1).updatedAt :=
  c6_create_then_list (by decide) (by decide)
